import Mathlib

/-!
Shallow embedding of `src/accelerator/musa_accelerator.py` (class
`MUSA_Accelerator`).  Python strings are modelled as Lean `String`,
Python `str.startswith` / `str.endswith` as character-list prefix /
suffix tests, the `torch_musa` runtime as an explicit environment
record, and the lazily populated op-builder registry (`class_dict`)
as explicit state passing.  A raised Python exception is modelled by
the `PyResult.exn` constructor; mutations performed before the raise
are kept in the returned state, exactly as in Python.
-/

namespace MusaAccelerator

/-- Python `s.startswith(p)`: `p` is a character-wise prefix of `s`. -/
def pyStartsWith (s p : String) : Bool :=
  p.data.isPrefixOf s.data

/-- Python `s.endswith(p)`: `p` is a character-wise suffix of `s`. -/
def pyEndsWith (s p : String) : Bool :=
  p.data.isSuffixOf s.data

/-- Embeds `device_name` (lines 27-30): `'musa'` for `None`,
`'musa:{}'.format(device_index)` otherwise. -/
def device_name : Option Nat → String
  | none => "musa"
  | some device_index => "musa:" ++ toString device_index

/-- Embeds `is_fp16_supported` (lines 141-146).  The argument is the
`(major, minor)` pair returned by `torch_musa.get_device_capability()`. -/
def is_fp16_supported (device_capability : Int × Int) : Bool :=
  if device_capability.1 ≥ 7 then true else false

/-- Embeds `on_accelerator` (lines 204-209).  The argument is
`str(tensor.device)`, the string form of the resource's device. -/
def on_accelerator (device_str : String) : Bool :=
  if pyStartsWith device_str "musa:" then true else false

lemma on_accelerator_eq (s : String) :
    on_accelerator s = pyStartsWith s "musa:" := by
  unfold on_accelerator
  split <;> simp_all

lemma pyStartsWith_iff (s p : String) :
    pyStartsWith s p = true ↔ ∃ t : String, s = p ++ t := by
  unfold pyStartsWith
  rw [List.isPrefixOf_iff_prefix]
  constructor
  · rintro ⟨t, ht⟩
    refine ⟨⟨t⟩, String.ext ?_⟩
    simpa using ht.symm
  · rintro ⟨t, rfl⟩
    exact ⟨t.data, by simp⟩

/-- C2: `is_fp16_supported()` returns true iff the major compute-capability
version is at least 7; in particular true at major 7 and false at major 6. -/
theorem c2_is_fp16_supported_ge7 :
    (∀ device_capability : Int × Int,
      is_fp16_supported device_capability = true ↔ 7 ≤ device_capability.1) ∧
    is_fp16_supported (7, 0) = true ∧ is_fp16_supported (6, 0) = false := by
  refine ⟨fun c => ?_, by decide, by decide⟩
  unfold is_fp16_supported
  split <;> simp_all

/-- Witness for C2 at a concrete capability pair. -/
theorem c2_is_fp16_supported_ge7_witness : is_fp16_supported (8, 0) = true :=
  (c2_is_fp16_supported_ge7.1 (8, 0)).mpr (by decide)

/-- C4: `on_accelerator` returns true iff the device string begins with the
backend name followed by the separator, i.e. the prefix `"musa:"`; it is
false for the bare backend name `"musa"` with no separator. -/
theorem c4_on_accelerator_musa_colon :
    (∀ device_str : String,
      on_accelerator device_str = true ↔ ∃ t : String, device_str = "musa:" ++ t) ∧
    on_accelerator "musa" = false := by
  refine ⟨fun s => ?_, by decide⟩
  rw [on_accelerator_eq]
  exact pyStartsWith_iff s "musa:"

/-- Witness for C4 at a concrete device string. -/
theorem c4_on_accelerator_musa_colon_witness : on_accelerator "musa:0" = true :=
  (c4_on_accelerator_musa_colon.1 "musa:0").mpr ⟨"0", by decide⟩

/-- C10: `device_name None` is the bare string `"musa"` (not recognized by
`on_accelerator`), while `device_name i` is `"musa:" ++ i` for every index
`i` (always recognized by `on_accelerator`). -/
theorem c10_device_name_vs_on_accelerator :
    device_name none = "musa" ∧
    (∀ i : Nat, device_name (some i) = "musa:" ++ toString i) ∧
    on_accelerator (device_name none) = false ∧
    ∀ i : Nat, on_accelerator (device_name (some i)) = true := by
  refine ⟨rfl, fun i => rfl, by decide, fun i => ?_⟩
  rw [on_accelerator_eq]
  exact (pyStartsWith_iff _ _).mpr ⟨toString i, rfl⟩

/-!
Model of the `torch_musa` runtime for the optional-capability methods
(lines 118-132, 149-163).  An `Option`-valued field is `some f` when
`hasattr` finds the corresponding attribute (with `f` the forwarded
runtime call, returning the runtime's own result) and `none` when the
attribute is absent.  `RuntimeTrace` logs every forwarded runtime call,
so "no side effect" is "trace unchanged".
-/

structure TorchMusaRuntime where
  memory_stats_fn : Option (Option Nat → Option Nat)
  reset_peak_memory_stats_fn : Option (Option Nat → Option Nat)
  memory_reserved_fn : Option (Option Nat → Option Nat)
  max_memory_reserved_fn : Option (Option Nat → Option Nat)
  amp_mod : Option Nat
  nvtx_range_push_fn : Option (String → Option Nat)
  nvtx_range_pop_fn : Option (Unit → Option Nat)

structure RuntimeTrace where
  calls : List String
deriving DecidableEq

/-- Embeds `memory_stats` (lines 118-120): forward iff `hasattr`. -/
def memory_stats (rt : TorchMusaRuntime) (device_index : Option Nat)
    (tr : RuntimeTrace) : Option Nat × RuntimeTrace :=
  match rt.memory_stats_fn with
  | some f => (f device_index, ⟨tr.calls ++ ["memory_stats"]⟩)
  | none => (none, tr)

/-- Embeds `reset_peak_memory_stats` (lines 122-124). -/
def reset_peak_memory_stats (rt : TorchMusaRuntime) (device_index : Option Nat)
    (tr : RuntimeTrace) : Option Nat × RuntimeTrace :=
  match rt.reset_peak_memory_stats_fn with
  | some f => (f device_index, ⟨tr.calls ++ ["reset_peak_memory_stats"]⟩)
  | none => (none, tr)

/-- Embeds `memory_reserved` (lines 126-128). -/
def memory_reserved (rt : TorchMusaRuntime) (device_index : Option Nat)
    (tr : RuntimeTrace) : Option Nat × RuntimeTrace :=
  match rt.memory_reserved_fn with
  | some f => (f device_index, ⟨tr.calls ++ ["memory_reserved"]⟩)
  | none => (none, tr)

/-- Embeds `max_memory_reserved` (lines 130-132). -/
def max_memory_reserved (rt : TorchMusaRuntime) (device_index : Option Nat)
    (tr : RuntimeTrace) : Option Nat × RuntimeTrace :=
  match rt.max_memory_reserved_fn with
  | some f => (f device_index, ⟨tr.calls ++ ["max_memory_reserved"]⟩)
  | none => (none, tr)

/-- Embeds `amp` (lines 149-152): return the `torch_musa.amp` attribute if
present, else `None`; an attribute access, no runtime call either way. -/
def amp (rt : TorchMusaRuntime) (tr : RuntimeTrace) : Option Nat × RuntimeTrace :=
  match rt.amp_mod with
  | some a => (some a, tr)
  | none => (none, tr)

/-- Embeds `range_push` (lines 157-159). -/
def range_push (rt : TorchMusaRuntime) (msg : String)
    (tr : RuntimeTrace) : Option Nat × RuntimeTrace :=
  match rt.nvtx_range_push_fn with
  | some f => (f msg, ⟨tr.calls ++ ["nvtx.range_push"]⟩)
  | none => (none, tr)

/-- Embeds `range_pop` (lines 161-163). -/
def range_pop (rt : TorchMusaRuntime) (tr : RuntimeTrace) : Option Nat × RuntimeTrace :=
  match rt.nvtx_range_pop_fn with
  | some f => (f (), ⟨tr.calls ++ ["nvtx.range_pop"]⟩)
  | none => (none, tr)

/-- C9: every optional capability method returns `None` and performs no
runtime call (trace unchanged) when the runtime lacks the attribute. -/
theorem c9_absent_capability_noop (rt : TorchMusaRuntime) (tr : RuntimeTrace) :
    (rt.memory_stats_fn = none → ∀ di, memory_stats rt di tr = (none, tr)) ∧
    (rt.reset_peak_memory_stats_fn = none →
      ∀ di, reset_peak_memory_stats rt di tr = (none, tr)) ∧
    (rt.memory_reserved_fn = none → ∀ di, memory_reserved rt di tr = (none, tr)) ∧
    (rt.max_memory_reserved_fn = none → ∀ di, max_memory_reserved rt di tr = (none, tr)) ∧
    (rt.amp_mod = none → amp rt tr = (none, tr)) ∧
    (rt.nvtx_range_push_fn = none → ∀ msg, range_push rt msg tr = (none, tr)) ∧
    (rt.nvtx_range_pop_fn = none → range_pop rt tr = (none, tr)) := by
  refine ⟨fun h di => ?_, fun h di => ?_, fun h di => ?_, fun h di => ?_,
    fun h => ?_, fun h msg => ?_, fun h => ?_⟩ <;>
    simp [memory_stats, reset_peak_memory_stats, memory_reserved,
      max_memory_reserved, amp, range_push, range_pop, h]

/-- Runtime with every optional attribute absent. -/
def absentRuntime : TorchMusaRuntime :=
  ⟨none, none, none, none, none, none, none⟩

/-- Witness for C9 on a runtime lacking every optional attribute. -/
theorem c9_absent_capability_noop_witness :
    memory_stats absentRuntime none ⟨[]⟩ = (none, ⟨[]⟩) ∧
    reset_peak_memory_stats absentRuntime none ⟨[]⟩ = (none, ⟨[]⟩) ∧
    memory_reserved absentRuntime none ⟨[]⟩ = (none, ⟨[]⟩) ∧
    max_memory_reserved absentRuntime none ⟨[]⟩ = (none, ⟨[]⟩) ∧
    amp absentRuntime ⟨[]⟩ = (none, ⟨[]⟩) ∧
    range_push absentRuntime "region" ⟨[]⟩ = (none, ⟨[]⟩) ∧
    range_pop absentRuntime ⟨[]⟩ = (none, ⟨[]⟩) := by
  have h := c9_absent_capability_noop absentRuntime ⟨[]⟩
  exact ⟨h.1 rfl none, h.2.1 rfl none, h.2.2.1 rfl none, h.2.2.2.1 rfl none,
    h.2.2.2.2.1 rfl, h.2.2.2.2.2.1 rfl "region", h.2.2.2.2.2.2 rfl⟩

/-!
Model of the op-builder plugin registry (lines 220-260).  The package
found by `op_builder_dir()` is an environment value: the list of its
submodules in `pkgutil.iter_modules` order.  Each submodule has a name,
its `__dir__()` members paired with the `getattr` results (class
references, modelled as opaque `Nat` identifiers), and a flag telling
whether `importlib.import_module` succeeds on it.  The adapter instance
state is `class_dict`; `scans` counts discovery scans (the observable
scan side effect) and `nextObj` is the allocation counter giving each
constructed instance its Python object identity.
-/

structure PyModule where
  name : String
  members : List (String × Nat)
  importOk : Bool
deriving DecidableEq

abbrev OpBuilderEnv := List PyModule

structure AdapterState where
  class_dict : Option (List (String × Nat))
  scans : Nat
  nextObj : Nat
deriving DecidableEq

/-- Result of a Python call: a value, or a propagating exception. -/
inductive PyResult (α : Type) where
  | ok : α → PyResult α
  | exn : PyResult α
deriving DecidableEq

/-- Member filter of line 239-241: name ends with `'Builder'` and is none
of the abstract classes `OpBuilder`, `CUDAOpBuilder`, `TorchCPUOpBuilder`. -/
def acceptMember (member_name : String) : Bool :=
  pyEndsWith member_name "Builder" && member_name != "OpBuilder" &&
    member_name != "CUDAOpBuilder" && member_name != "TorchCPUOpBuilder"

/-- Module filter of line 236: process the submodule iff its name is none
of `all_ops`, `builder`, `cpu`. -/
def moduleIncluded (module_name : String) : Bool :=
  module_name != "all_ops" && module_name != "builder" && module_name != "cpu"

/-- Inner loop of lines 238-243: walk the module's members and insert each
accepted one into `class_dict` keyed by its own name, unless the key is
already present.  The dict is an association list looked up by first match;
keys stay unique because insertion happens only when the key is absent. -/
def insertMembers (d : List (String × Nat)) (members : List (String × Nat)) :
    List (String × Nat) :=
  members.foldl
    (fun acc p =>
      if acceptMember p.1 then
        if (acc.lookup p.1).isSome then acc else acc ++ [p]
      else acc)
    d

/-- Outer loop of lines 234-243: walk the submodules in enumeration order;
skip excluded names; import each remaining one and insert its members.
Returns the dict built so far and `true`, or — when an import raises —
the partial dict built before the failure and `false`. -/
def scanModules : OpBuilderEnv → List (String × Nat) → List (String × Nat) × Bool
  | [], d => (d, true)
  | m :: rest, d =>
    if moduleIncluded m.name then
      if m.importOk then scanModules rest (insertMembers d m.members)
      else (d, false)
    else scanModules rest d

/-- Embeds `_lazy_init_class_dict` (lines 225-244).  If `class_dict` is not
`None` it returns at once.  Otherwise `class_dict` is first set to `{}` and
then filled by the scan; when a submodule import raises, the exception
propagates (second component `false`) while `class_dict` keeps the partial
dict already built, exactly as the Python attribute does. -/
def lazy_init_class_dict (env : OpBuilderEnv) (st : AdapterState) :
    AdapterState × Bool :=
  match st.class_dict with
  | some _ => (st, true)
  | none =>
    let r := scanModules env []
    (⟨some r.1, st.scans + 1, st.nextObj⟩, r.2)

/-- Python object produced by calling a registered class's no-argument
constructor; `objId` is its allocation identity. -/
structure BuilderInstance where
  classId : Nat
  objId : Nat
deriving DecidableEq

/-- Embeds `get_op_builder` (lines 255-260): lazy init, then return the
class if the name is registered, else `None`. -/
def get_op_builder (env : OpBuilderEnv) (st : AdapterState) (class_name : String) :
    PyResult (Option Nat) × AdapterState :=
  let r := lazy_init_class_dict env st
  if r.2 then (PyResult.ok ((r.1.class_dict.getD []).lookup class_name), r.1)
  else (PyResult.exn, r.1)

/-- Embeds `create_op_builder` (lines 247-252): lazy init, then construct a
fresh instance of the registered class, else return `None`. -/
def create_op_builder (env : OpBuilderEnv) (st : AdapterState) (class_name : String) :
    PyResult (Option BuilderInstance) × AdapterState :=
  let r := lazy_init_class_dict env st
  if r.2 then
    match (r.1.class_dict.getD []).lookup class_name with
    | some cid =>
      (PyResult.ok (some ⟨cid, r.1.nextObj⟩), ⟨r.1.class_dict, r.1.scans, r.1.nextObj + 1⟩)
    | none => (PyResult.ok none, r.1)
  else (PyResult.exn, r.1)

/-- Discovery stream: the accepted `(name, class)` pairs of the included
modules, in scan order.  Its first-match `lookup` is the specification of
first-discovery-wins. -/
def acceptedStream : OpBuilderEnv → List (String × Nat)
  | [] => []
  | m :: rest =>
    if moduleIncluded m.name then
      m.members.filter (fun p => acceptMember p.1) ++ acceptedStream rest
    else acceptedStream rest

/-- Environment whose second submodule fails to import; the scan accepts one
builder before the failure and would accept another one after it. -/
def envC1 : OpBuilderEnv :=
  [⟨"fused_adam", [("FusedAdamBuilder", 1)], true⟩,
   ⟨"quantizer", [("QuantizerBuilder", 2)], false⟩,
   ⟨"transformer", [("TransformerBuilder", 3)], true⟩]

/-- Environment where every included submodule imports successfully. -/
def envOk : OpBuilderEnv :=
  [⟨"fused_adam", [("FusedAdamBuilder", 1)], true⟩,
   ⟨"transformer", [("TransformerBuilder", 3)], true⟩]

lemma lazy_init_of_some (env : OpBuilderEnv) (st : AdapterState)
    (h : st.class_dict ≠ none) : lazy_init_class_dict env st = (st, true) := by
  obtain ⟨cd, sc, no⟩ := st
  cases cd with
  | none => exact absurd rfl h
  | some d => rfl

lemma get_op_builder_state (env : OpBuilderEnv) (st : AdapterState) (n : String) :
    (get_op_builder env st n).2 = (lazy_init_class_dict env st).1 := by
  cases h : (lazy_init_class_dict env st).2 <;> simp [get_op_builder, h]

lemma create_op_builder_state (env : OpBuilderEnv) (st : AdapterState) (n : String) :
    (create_op_builder env st n).2.scans = (lazy_init_class_dict env st).1.scans ∧
    (create_op_builder env st n).2.class_dict =
      (lazy_init_class_dict env st).1.class_dict := by
  cases h : (lazy_init_class_dict env st).2
  · simp [create_op_builder, h]
  · cases hl : ((lazy_init_class_dict env st).1.class_dict.getD []).lookup n <;>
      simp [create_op_builder, h, hl]

/-- C1 counterexample: on `envC1` the failing import leaves `class_dict`
holding the partial mapping built before the failure (so it is neither
`None` nor fully populated), and a later call performs no fresh discovery:
the builder a full scan would have found is still reported absent. -/
theorem c1_partial_registry_counterexample :
    (lazy_init_class_dict envC1 ⟨none, 0, 0⟩).2 = false ∧
    (lazy_init_class_dict envC1 ⟨none, 0, 0⟩).1.class_dict =
      some [("FusedAdamBuilder", 1)] ∧
    lazy_init_class_dict envC1 (lazy_init_class_dict envC1 ⟨none, 0, 0⟩).1 =
      ((lazy_init_class_dict envC1 ⟨none, 0, 0⟩).1, true) ∧
    (get_op_builder envC1 (lazy_init_class_dict envC1 ⟨none, 0, 0⟩).1
      "TransformerBuilder").1 = PyResult.ok none := by
  decide

/-- C1 amended: when a submodule import fails during the discovery scan the
error propagates, but `class_dict` keeps the partial mapping built before
the failure (it is no longer `None`), so a later call sees a populated
registry and does not re-run discovery. -/
theorem c1_import_failure_keeps_partial_registry (env : OpBuilderEnv)
    (st : AdapterState) (hnone : st.class_dict = none)
    (hfail : (lazy_init_class_dict env st).2 = false) :
    (∃ d, (lazy_init_class_dict env st).1.class_dict = some d) ∧
    lazy_init_class_dict env (lazy_init_class_dict env st).1 =
      ((lazy_init_class_dict env st).1, true) := by
  obtain ⟨cd, sc, no⟩ := st
  cases cd with
  | none => exact ⟨⟨(scanModules env []).1, rfl⟩, rfl⟩
  | some d => exact Option.noConfusion hnone

/-- Witness for C1 on the concrete failing environment. -/
theorem c1_import_failure_keeps_partial_registry_witness :
    (∃ d, (lazy_init_class_dict envC1 ⟨none, 0, 0⟩).1.class_dict = some d) ∧
    lazy_init_class_dict envC1 (lazy_init_class_dict envC1 ⟨none, 0, 0⟩).1 =
      ((lazy_init_class_dict envC1 ⟨none, 0, 0⟩).1, true) :=
  c1_import_failure_keeps_partial_registry envC1 ⟨none, 0, 0⟩ rfl (by decide)

/-- C3: once `class_dict` is populated, `_lazy_init_class_dict` is a no-op,
and across two consecutive `get_op_builder` calls (or a following
`create_op_builder` call) exactly one discovery scan happens: the first
call increments the scan count once, the second reuses the mapping and
leaves the whole state unchanged. -/
theorem c3_registry_populates_once :
    (∀ (env : OpBuilderEnv) (st : AdapterState), st.class_dict ≠ none →
      lazy_init_class_dict env st = (st, true)) ∧
    (∀ (env : OpBuilderEnv) (st : AdapterState) (n₁ n₂ : String),
      st.class_dict = none →
      (get_op_builder env st n₁).2.scans = st.scans + 1 ∧
      (get_op_builder env (get_op_builder env st n₁).2 n₂).2 =
        (get_op_builder env st n₁).2 ∧
      (create_op_builder env (get_op_builder env st n₁).2 n₂).2.scans =
        st.scans + 1) := by
  refine ⟨lazy_init_of_some, fun env st n₁ n₂ h => ?_⟩
  obtain ⟨cd, sc, no⟩ := st
  cases cd with
  | some d => exact Option.noConfusion h
  | none =>
    have hst : (get_op_builder env ⟨none, sc, no⟩ n₁).2 =
        (⟨some (scanModules env []).1, sc + 1, no⟩ : AdapterState) :=
      get_op_builder_state env ⟨none, sc, no⟩ n₁
    have hsome : ((get_op_builder env ⟨none, sc, no⟩ n₁).2).class_dict ≠ none := by
      rw [hst]; exact fun hc => Option.noConfusion hc
    refine ⟨by rw [hst], ?_, ?_⟩
    · rw [get_op_builder_state, lazy_init_of_some _ _ hsome]
    · rw [(create_op_builder_state env _ n₂).1, lazy_init_of_some _ _ hsome, hst]

/-- Witness for C3 on a concrete environment. -/
theorem c3_registry_populates_once_witness :
    lazy_init_class_dict envOk ⟨some [("FusedAdamBuilder", 1)], 1, 0⟩ =
      (⟨some [("FusedAdamBuilder", 1)], 1, 0⟩, true) ∧
    (get_op_builder envOk ⟨none, 0, 0⟩ "FusedAdamBuilder").2.scans = 0 + 1 :=
  ⟨c3_registry_populates_once.1 envOk ⟨some [("FusedAdamBuilder", 1)], 1, 0⟩
      (by decide),
   (c3_registry_populates_once.2 envOk ⟨none, 0, 0⟩ "FusedAdamBuilder"
      "TransformerBuilder" rfl).1⟩

lemma get_op_builder_of_some (env : OpBuilderEnv) (d : List (String × Nat))
    (sc no : Nat) (n : String) :
    get_op_builder env ⟨some d, sc, no⟩ n =
      (PyResult.ok (d.lookup n), ⟨some d, sc, no⟩) := rfl

lemma create_op_builder_found (env : OpBuilderEnv) (d : List (String × Nat))
    (sc no : Nat) (n : String) (cid : Nat) (hk : d.lookup n = some cid) :
    create_op_builder env ⟨some d, sc, no⟩ n =
      (PyResult.ok (some ⟨cid, no⟩), ⟨some d, sc, no + 1⟩) := by
  simp [create_op_builder, lazy_init_class_dict, hk]

lemma create_op_builder_missing (env : OpBuilderEnv) (d : List (String × Nat))
    (sc no : Nat) (n : String) (hn : d.lookup n = none) :
    create_op_builder env ⟨some d, sc, no⟩ n =
      (PyResult.ok none, ⟨some d, sc, no⟩) := by
  simp [create_op_builder, lazy_init_class_dict, hn]

/-- C5: with a populated registry that does not contain the requested name,
both `get_op_builder` and `create_op_builder` return `None` without raising
and leave the state unchanged. -/
theorem c5_unknown_name_returns_none (env : OpBuilderEnv) (st : AdapterState)
    (d : List (String × Nat)) (class_name : String)
    (hd : st.class_dict = some d) (hn : d.lookup class_name = none) :
    get_op_builder env st class_name = (PyResult.ok none, st) ∧
    create_op_builder env st class_name = (PyResult.ok none, st) := by
  obtain ⟨cd, sc, no⟩ := st
  cases cd with
  | none => exact Option.noConfusion hd
  | some d0 =>
    obtain rfl : d = d0 := by injection hd with h; exact h.symm
    exact ⟨by rw [get_op_builder_of_some, hn],
      create_op_builder_missing env d sc no class_name hn⟩

/-- Witness for C5 with the name Nonexistent on a populated registry. -/
theorem c5_unknown_name_returns_none_witness :
    get_op_builder envOk ⟨some [("FusedAdamBuilder", 1)], 1, 0⟩ "Nonexistent" =
      (PyResult.ok none, ⟨some [("FusedAdamBuilder", 1)], 1, 0⟩) ∧
    create_op_builder envOk ⟨some [("FusedAdamBuilder", 1)], 1, 0⟩ "Nonexistent" =
      (PyResult.ok none, ⟨some [("FusedAdamBuilder", 1)], 1, 0⟩) :=
  c5_unknown_name_returns_none envOk ⟨some [("FusedAdamBuilder", 1)], 1, 0⟩
    [("FusedAdamBuilder", 1)] "Nonexistent" rfl (by decide)

/-- C8: for a registered name, each `create_op_builder` call runs the
class's no-argument constructor and returns a fresh object: two consecutive
calls return instances of the registered class with distinct identities. -/
theorem c8_create_returns_fresh_instances (env : OpBuilderEnv)
    (st : AdapterState) (d : List (String × Nat)) (class_name : String)
    (cid : Nat) (hd : st.class_dict = some d)
    (hk : d.lookup class_name = some cid) :
    ∃ i₁ i₂ : BuilderInstance,
      (create_op_builder env st class_name).1 = PyResult.ok (some i₁) ∧
      (create_op_builder env (create_op_builder env st class_name).2
        class_name).1 = PyResult.ok (some i₂) ∧
      i₁.classId = cid ∧ i₂.classId = cid ∧ i₁ ≠ i₂ := by
  obtain ⟨cd, sc, no⟩ := st
  cases cd with
  | none => exact Option.noConfusion hd
  | some d0 =>
    obtain rfl : d = d0 := by injection hd with h; exact h.symm
    have h₁ := create_op_builder_found env d sc no class_name cid hk
    have h₂ := create_op_builder_found env d sc (no + 1) class_name cid hk
    refine ⟨⟨cid, no⟩, ⟨cid, no + 1⟩, by rw [h₁], ?_, rfl, rfl, ?_⟩
    · rw [h₁, h₂]
    · intro hcontra
      have : no = no + 1 := congrArg BuilderInstance.objId hcontra
      omega

/-- Witness for C8 on a concrete registered builder. -/
theorem c8_create_returns_fresh_instances_witness :
    ∃ i₁ i₂ : BuilderInstance,
      (create_op_builder envOk ⟨some [("FusedAdamBuilder", 1)], 1, 0⟩
        "FusedAdamBuilder").1 = PyResult.ok (some i₁) ∧
      (create_op_builder envOk
        (create_op_builder envOk ⟨some [("FusedAdamBuilder", 1)], 1, 0⟩
          "FusedAdamBuilder").2 "FusedAdamBuilder").1 = PyResult.ok (some i₂) ∧
      i₁.classId = 1 ∧ i₂.classId = 1 ∧ i₁ ≠ i₂ :=
  c8_create_returns_fresh_instances envOk ⟨some [("FusedAdamBuilder", 1)], 1, 0⟩
    [("FusedAdamBuilder", 1)] "FusedAdamBuilder" 1 rfl (by decide)

lemma insertMembers_lookup (members : List (String × Nat))
    (d : List (String × Nat)) (k : String) :
    (insertMembers d members).lookup k =
      (d ++ members.filter fun p => acceptMember p.1).lookup k := by
  induction members generalizing d with
  | nil => simp [insertMembers]
  | cons p rest ih =>
    obtain ⟨pn, pv⟩ := p
    by_cases ha : acceptMember pn = true
    · by_cases hd : (d.lookup pn).isSome = true
      · have hstep : insertMembers d ((pn, pv) :: rest) = insertMembers d rest := by
          simp [insertMembers, ha, hd]
        rw [hstep, ih d, List.filter_cons]
        simp only [ha, if_true]
        obtain ⟨v, hv⟩ := Option.isSome_iff_exists.mp hd
        by_cases hk : k = pn
        · subst hk
          simp [List.lookup_append, hv]
        · have hb : (k == pn) = false := beq_eq_false_iff_ne.mpr hk
          simp [List.lookup_append, List.lookup_cons, hb]
      · have hstep : insertMembers d ((pn, pv) :: rest) =
            insertMembers (d ++ [(pn, pv)]) rest := by
          simp [insertMembers, ha, hd]
        rw [hstep, ih (d ++ [(pn, pv)]), List.filter_cons]
        simp only [ha, if_true]
        rw [List.append_assoc, List.singleton_append]
    · have hstep : insertMembers d ((pn, pv) :: rest) = insertMembers d rest := by
        simp [insertMembers, ha]
      rw [hstep, ih d, List.filter_cons]
      simp [ha]

lemma scanModules_lookup (env : OpBuilderEnv) (d : List (String × Nat))
    (himp : ∀ m ∈ env, moduleIncluded m.name = true → m.importOk = true) :
    (scanModules env d).2 = true ∧
    ∀ k, ((scanModules env d).1).lookup k = (d ++ acceptedStream env).lookup k := by
  induction env generalizing d with
  | nil => simp [scanModules, acceptedStream]
  | cons m rest ih =>
    have himp' : ∀ m' ∈ rest, moduleIncluded m'.name = true → m'.importOk = true :=
      fun m' hm' => himp m' (List.mem_cons_of_mem m hm')
    by_cases hm : moduleIncluded m.name = true
    · have hok : m.importOk = true := himp m (List.mem_cons_self m rest) hm
      have hstep : scanModules (m :: rest) d =
          scanModules rest (insertMembers d m.members) := by
        simp [scanModules, hm, hok]
      have hacc : acceptedStream (m :: rest) =
          m.members.filter (fun p => acceptMember p.1) ++ acceptedStream rest := by
        simp [acceptedStream, hm]
      obtain ⟨h1, h2⟩ := ih (insertMembers d m.members) himp'
      refine ⟨by rw [hstep]; exact h1, fun k => ?_⟩
      rw [hstep, h2 k, hacc]
      simp only [List.lookup_append, insertMembers_lookup, Option.or_assoc]
    · have hstep : scanModules (m :: rest) d = scanModules rest d := by
        simp [scanModules, hm]
      have hacc : acceptedStream (m :: rest) = acceptedStream rest := by
        simp [acceptedStream, hm]
      obtain ⟨h1, h2⟩ := ih d himp'
      exact ⟨by rw [hstep]; exact h1, fun k => by rw [hstep, h2 k, hacc]⟩

/-- Environment whose two included submodules both export a class named
FusedAdamBuilder; the first one discovered must win. -/
def envDup : OpBuilderEnv :=
  [⟨"fused_adam", [("FusedAdamBuilder", 1)], true⟩,
   ⟨"dup", [("FusedAdamBuilder", 7), ("TransformerBuilder", 3)], true⟩]

/-- C6: when every included submodule imports, the scan succeeds and the
registry's lookup agrees with first-match lookup on the discovery stream of
accepted symbols: the first class discovered under a name wins and every
later duplicate of that name is silently ignored. -/
theorem c6_first_discovery_wins (env : OpBuilderEnv)
    (himp : ∀ m ∈ env, moduleIncluded m.name = true → m.importOk = true) :
    (scanModules env []).2 = true ∧
    ∀ k, ((scanModules env []).1).lookup k = (acceptedStream env).lookup k := by
  obtain ⟨h1, h2⟩ := scanModules_lookup env [] himp
  exact ⟨h1, fun k => by rw [h2 k]; rfl⟩

/-- Witness for C6 on an environment with a duplicated builder name. -/
theorem c6_first_discovery_wins_witness :
    (scanModules envDup []).2 = true ∧
    ((scanModules envDup []).1).lookup "FusedAdamBuilder" =
      (acceptedStream envDup).lookup "FusedAdamBuilder" :=
  ⟨(c6_first_discovery_wins envDup (by decide)).1,
   (c6_first_discovery_wins envDup (by decide)).2 "FusedAdamBuilder"⟩

lemma mem_insertMembers (ms : List (String × Nat)) (d : List (String × Nat))
    (q : String × Nat) (hq : q ∈ insertMembers d ms) :
    q ∈ d ∨ (q ∈ ms ∧ acceptMember q.1 = true) := by
  induction ms generalizing d with
  | nil => exact Or.inl hq
  | cons p rest ih =>
    obtain ⟨pn, pv⟩ := p
    by_cases ha : acceptMember pn = true
    · by_cases hd : (d.lookup pn).isSome = true
      · have hstep : insertMembers d ((pn, pv) :: rest) = insertMembers d rest := by
          simp [insertMembers, ha, hd]
        rw [hstep] at hq
        rcases ih d hq with h | ⟨h1, h2⟩
        · exact Or.inl h
        · exact Or.inr ⟨List.mem_cons_of_mem _ h1, h2⟩
      · have hstep : insertMembers d ((pn, pv) :: rest) =
            insertMembers (d ++ [(pn, pv)]) rest := by
          simp [insertMembers, ha, hd]
        rw [hstep] at hq
        rcases ih (d ++ [(pn, pv)]) hq with h | ⟨h1, h2⟩
        · rcases List.mem_append.mp h with h' | h'
          · exact Or.inl h'
          · have hqe : q = (pn, pv) := by simpa using h'
            subst hqe
            exact Or.inr ⟨List.mem_cons_self _ _, ha⟩
        · exact Or.inr ⟨List.mem_cons_of_mem _ h1, h2⟩
    · have hstep : insertMembers d ((pn, pv) :: rest) = insertMembers d rest := by
        simp [insertMembers, ha]
      rw [hstep] at hq
      rcases ih d hq with h | ⟨h1, h2⟩
      · exact Or.inl h
      · exact Or.inr ⟨List.mem_cons_of_mem _ h1, h2⟩

lemma mem_scanModules (env : OpBuilderEnv) (d : List (String × Nat))
    (q : String × Nat) (hq : q ∈ (scanModules env d).1) :
    q ∈ d ∨ ∃ m ∈ env, moduleIncluded m.name = true ∧ q ∈ m.members ∧
      acceptMember q.1 = true := by
  induction env generalizing d with
  | nil => exact Or.inl hq
  | cons m rest ih =>
    by_cases hm : moduleIncluded m.name = true
    · by_cases hok : m.importOk = true
      · have hstep : scanModules (m :: rest) d =
            scanModules rest (insertMembers d m.members) := by
          simp [scanModules, hm, hok]
        rw [hstep] at hq
        rcases ih (insertMembers d m.members) hq with h | ⟨m', hm', hin, hmem, hacc⟩
        · rcases mem_insertMembers m.members d q h with h' | ⟨h1, h2⟩
          · exact Or.inl h'
          · exact Or.inr ⟨m, List.mem_cons_self _ _, hm, h1, h2⟩
        · exact Or.inr ⟨m', List.mem_cons_of_mem _ hm', hin, hmem, hacc⟩
      · have hstep : scanModules (m :: rest) d = (d, false) := by
          simp [scanModules, hm, hok]
        rw [hstep] at hq
        exact Or.inl hq
    · have hstep : scanModules (m :: rest) d = scanModules rest d := by
        simp [scanModules, hm]
      rw [hstep] at hq
      rcases ih d hq with h | ⟨m', hm', hrest⟩
      · exact Or.inl h
      · exact Or.inr ⟨m', List.mem_cons_of_mem _ hm', hrest⟩

/-- C7: the discovery scan skips the submodules named all_ops, builder and
cpu; a symbol is accepted iff its name ends with the suffix Builder and is
none of OpBuilder, CUDAOpBuilder, TorchCPUOpBuilder; and every registry
entry comes from a non-excluded module and an accepted symbol. -/
theorem c7_exclusion_rules :
    (∀ module_name : String, moduleIncluded module_name = true ↔
      (module_name ≠ "all_ops" ∧ module_name ≠ "builder" ∧ module_name ≠ "cpu")) ∧
    (∀ member_name : String, acceptMember member_name = true ↔
      (pyEndsWith member_name "Builder" = true ∧ member_name ≠ "OpBuilder" ∧
       member_name ≠ "CUDAOpBuilder" ∧ member_name ≠ "TorchCPUOpBuilder")) ∧
    (∀ (env : OpBuilderEnv) (k : String) (v : Nat),
      ((scanModules env []).1).lookup k = some v →
      (pyEndsWith k "Builder" = true ∧ k ≠ "OpBuilder" ∧ k ≠ "CUDAOpBuilder" ∧
        k ≠ "TorchCPUOpBuilder") ∧
      ∃ m ∈ env, (m.name ≠ "all_ops" ∧ m.name ≠ "builder" ∧ m.name ≠ "cpu") ∧
        (k, v) ∈ m.members) := by
  have hmod : ∀ module_name : String, moduleIncluded module_name = true ↔
      (module_name ≠ "all_ops" ∧ module_name ≠ "builder" ∧ module_name ≠ "cpu") := by
    intro n
    simp [moduleIncluded, Bool.and_eq_true, bne_iff_ne, and_assoc]
  have haccept : ∀ member_name : String, acceptMember member_name = true ↔
      (pyEndsWith member_name "Builder" = true ∧ member_name ≠ "OpBuilder" ∧
       member_name ≠ "CUDAOpBuilder" ∧ member_name ≠ "TorchCPUOpBuilder") := by
    intro n
    simp [acceptMember, Bool.and_eq_true, bne_iff_ne, and_assoc]
  refine ⟨hmod, haccept, fun env k v hlk => ?_⟩
  have hmem : (k, v) ∈ (scanModules env []).1 := by
    rcases List.lookup_eq_some_iff.mp hlk with ⟨l₁, l₂, hl, _⟩
    rw [hl]
    simp
  rcases mem_scanModules env [] (k, v) hmem with h | ⟨m, hm, hin, hmemm, haccm⟩
  · exact absurd h (List.not_mem_nil _)
  · exact ⟨(haccept k).mp haccm, m, hm, (hmod m.name).mp hin, hmemm⟩

/-- Witness for C7: an included module name accepted through the iff, and
the suffix condition recovered from a concrete registry entry. -/
theorem c7_exclusion_rules_witness :
    moduleIncluded "fused_adam" = true ∧
    pyEndsWith "FusedAdamBuilder" "Builder" = true :=
  ⟨(c7_exclusion_rules.1 "fused_adam").mpr (by decide),
   ((c7_exclusion_rules.2.2 envDup "FusedAdamBuilder" 1) (by decide)).1.1⟩

end MusaAccelerator
